import Mathlib

/-!
Shallow embedding of the dataset-to-analysis pipeline of `src/app.py`
(CKAN catalog explorer for hospital-production indicators).

Numbers are modelled as rationals; a table cell is a `Value`
(number, text, or null).  External collaborators (the CKAN datastore
endpoint, the CSV reader `pd.read_csv`, and the string-to-number parser
inside `pd.to_numeric`) are parameters of the embedded functions.
-/

/-- A scalar cell value of a loaded table: a number, a text string, or null
(`None` / `NaN`). -/
inductive Value where
  | num (q : ℚ)
  | str (s : String)
  | null
deriving DecidableEq

/-- A record row, as returned by the CKAN datastore: a mapping from column
name to scalar value. -/
abbrev Row : Type := List (String × Value)

/-- A materialized tabular dataset (`pd.DataFrame` viewed as its record
rows, as built by `pd.DataFrame(records)`). -/
structure Table where
  rows : List Row
deriving DecidableEq

/-- A CKAN resource descriptor, with the fields read by `cargar_recurso`:
`resource["id"]`, `resource.get("format")`, `resource.get("datastore_active")`
(modelled as its Python truthiness), and `resource.get("url")`. -/
structure Resource where
  id : String
  format : Option String
  datastore_active : Bool
  url : Option String

/-- Embeds `cargar_recurso_datastore` (src/app.py lines 67-71): query the
datastore endpoint for the resource with the given limit and build a
DataFrame from the returned record list.  The network fetch is the
parameter `store`. -/
def cargar_recurso_datastore (store : String → Nat → List Row)
    (resource_id : String) (limit : Nat) : Table :=
  Table.mk (store resource_id limit)

/-- Python truthiness of `resource.get("url")`: `None` and the empty string
are falsy. -/
def urlTruthy : Option String → Bool
  | none => false
  | some u => u != ""

/-- Embeds `cargar_recurso` (src/app.py lines 73-82): if the resource has
`datastore_active` truthy, load via the datastore; otherwise, if
`(resource.get("format") or "").upper() == "CSV"` and the url is truthy,
parse the CSV at the url (`pd.read_csv` is the parameter `readCsv`);
otherwise return `None`. -/
def cargar_recurso (store : String → Nat → List Row) (readCsv : String → Table)
    (resource : Resource) (limit : Nat) : Option Table :=
  if resource.datastore_active then
    some (cargar_recurso_datastore store resource.id limit)
  else if ((resource.format.getD "").toUpper == "CSV" && urlTruthy resource.url) then
    some (readCsv (resource.url.getD ""))
  else
    none

/-! ### Schema profiler (src/app.py lines 84-97) -/

/-- A cell of a column as seen by the profiler: either an ordinary scalar
`Value`, or an exotic (unhashable) object on which `Series.nunique`
raises. -/
inductive Cell where
  | val (v : Value)
  | exotic
deriving DecidableEq

/-- Whether a value is null (dropped by `dropna=True`). -/
def Value.isNull : Value → Bool
  | .null => true
  | _ => false

/-- The scalar content of a cell, if any. -/
def Cell.toValue : Cell → Option Value
  | .val v => some v
  | .exotic => none

/-- A table viewed column-wise, as the profiler iterates `df.columns` and
reads each `df[c]`: a list of (column name, cell list) pairs. -/
abbrev ColTable : Type := List (String × List Cell)

/-- Embeds `df[c].nunique(dropna=True)`: the number of distinct non-null
values of the column.  `none` models the call raising (src catches every
exception), which happens when the column holds unhashable objects. -/
def nunique (cells : List Cell) : Option Nat :=
  if cells.contains Cell.exotic then
    none
  else
    some ((((cells.filterMap Cell.toValue).filter
      (fun v => !v.isNull)).dedup).length)

/-- Embeds `low_cardinality_cols` (src/app.py lines 87-97): keep the
columns whose distinct non-null count lies in `[2, max_unique]`; a column
whose `nunique` raises is skipped silently. -/
def low_cardinality_cols (df : ColTable) (max_unique : Nat) : List String :=
  df.filterMap (fun p =>
    match nunique p.2 with
    | none => none
    | some nun => if 2 ≤ nun ∧ nun ≤ max_unique then some p.1 else none)

/-- Embeds `cat_candidates` (src/app.py line 242): the low-cardinality
columns of the filtered table, with the selected indicator column `col`
removed.  Both call sites use the default `max_unique=60`. -/
def cat_candidates (df_f : ColTable) (col : String) : List String :=
  (low_cardinality_cols df_f 60).filter (fun c => c != col)

/-! ### Numeric coercion, range filter and KPIs (src/app.py lines 200-220) -/

/-- Embeds `pd.to_numeric(x, errors="coerce")` on one cell: numbers pass
through, strings go through the numeric parser (the parameter `parse`,
yielding `none` for non-parseable text, which becomes NaN), nulls stay
null.  `none` models NaN. -/
def toNumeric (parse : String → Option ℚ) : Value → Option ℚ
  | .num q => some q
  | .str s => parse s
  | .null => none

/-- The coerced column `df[col]` after line 200: every cell mapped through
`pd.to_numeric(-, errors="coerce")`. -/
def coerceCol (parse : String → Option ℚ) (col : List Value) : List (Option ℚ) :=
  col.map (toNumeric parse)

/-- Embeds `serie = df[col].dropna()` (line 201): the non-NaN values of the
coerced column, in row order. -/
def serieOf (parse : String → Option ℚ) (col : List Value) : List ℚ :=
  (coerceCol parse col).filterMap id

/-- Embeds lines 210-211: `df_f = df[(df[col] >= lo) & (df[col] <= hi)]`
followed by `s = df_f[col].dropna()`.  A NaN cell compares false on both
bounds, so its row is excluded. -/
def filteredSerie (coerced : List (Option ℚ)) (lo hi : ℚ) : List ℚ :=
  (coerced.filter (fun o =>
    match o with
    | some v => decide (lo ≤ v) && decide (v ≤ hi)
    | none => false)).filterMap id

/-- Embeds `serie.min()` for a non-empty series (line 208). -/
def sMin : List ℚ → ℚ
  | [] => 0
  | x :: xs => xs.foldl min x

/-- Embeds `serie.max()` for a non-empty series (line 208). -/
def sMax : List ℚ → ℚ
  | [] => 0
  | x :: xs => xs.foldl max x

/-- Embeds `s.mean()`: arithmetic mean (0 on the empty series, where
pandas would give NaN; all claims evaluate it on non-empty series). -/
def sMean (s : List ℚ) : ℚ :=
  s.sum / (s.length : ℚ)

/-- Embeds `s.quantile(q)` (and `s.median() = s.quantile(0.5)`): linear
interpolation between closest ranks of the ascending-sorted series. -/
def sQuantile (q : ℚ) (s : List ℚ) : ℚ :=
  let sorted := s.insertionSort (fun a b => a ≤ b)
  match sorted with
  | [] => 0
  | _ :: _ =>
    let h : ℚ := q * ((sorted.length : ℚ) - 1)
    let i : Nat := h.floor.toNat
    let frac : ℚ := h - (i : ℚ)
    match sorted[i]?, sorted[i + 1]? with
    | some a, some b => a + frac * (b - a)
    | some a, none => a
    | none, _ => 0

/-- Embeds `s.median()`. -/
def sMedian (s : List ℚ) : ℚ :=
  sQuantile (1 / 2) s

/-- The six KPI metrics of src/app.py lines 215-220. -/
structure KPIs where
  registros : Nat
  suma : ℚ
  promedio : ℚ
  mediana : ℚ
  p90 : ℚ
  maximo : ℚ
deriving DecidableEq

/-- The one error condition of the analysis stage: the coerced series is
empty and the app halts (lines 203-205). -/
inductive PipeError where
  | emptySeriesError
deriving DecidableEq

/-- Embeds the interactive analysis flow of src/app.py lines 200-220:
coerce the selected column, halt with the empty-series warning if the
dropna'd series is empty, otherwise range-filter and compute the KPIs
over the filtered series `s`. -/
def analisis (parse : String → Option ℚ) (col : List Value) (lo hi : ℚ) :
    Except PipeError KPIs :=
  let coerced := coerceCol parse col
  let serie := coerced.filterMap id
  if serie.isEmpty then
    .error .emptySeriesError
  else
    let s := filteredSerie coerced lo hi
    .ok ⟨s.length, s.sum, sMean s, sMedian s, sQuantile (9 / 10) s, sMax s⟩

/-! ### Top-15 aggregation by category (src/app.py lines 245-258)

`tmp` is the two-column frame `df_f[[cat, col]]` after line 248's
`tmp[cat] = tmp[cat].astype(str)`: a list of (category string, numeric
value) row pairs, in row order.  The value column carries no NaN because
every row of `df_f` passed the numeric range predicate on `df[col]`.
`groupby(cat)` (with its default `sort=True`) emits one entry per
distinct key, keys sorted ascending; `sort_values(ascending=False)` is
modelled as a stable descending sort of those entries (the tie order of
pandas' default quicksort is implementation-defined; on the key-sorted
groupby output it is in any case a function of the key order, not of the
original row order). -/

/-- The aggregation mode chosen at line 245. -/
inductive Mode where
  | suma
  | promedio
  | conteo
deriving DecidableEq

/-- The reduction applied per group: `sum()`, `mean()` or `count()` (the
values are non-null, so `count` is the group size). -/
def reduceMode : Mode → List ℚ → ℚ
  | .suma, vs => vs.sum
  | .promedio, vs => sMean vs
  | .conteo, vs => (vs.length : ℚ)

/-- The value-column entries of the rows whose category equals `k`. -/
def groupValues (tmp : List (String × ℚ)) (k : String) : List ℚ :=
  tmp.filterMap (fun p => if p.1 == k then some p.2 else none)

/-- Embeds `tmp.groupby(cat)[col].agg(...)`: one (key, reduced value)
entry per distinct category, keys in ascending order. -/
def groupedByCat (mode : Mode) (tmp : List (String × ℚ)) : List (String × ℚ) :=
  (((tmp.map Prod.fst).dedup).insertionSort (fun a b => a ≤ b)).map
    (fun k => (k, reduceMode mode (groupValues tmp k)))

/-- Embeds lines 250-258: group by category, reduce, sort descending by
the reduced value, keep the first 15 entries. -/
def top15 (mode : Mode) (tmp : List (String × ℚ)) : List (String × ℚ) :=
  ((groupedByCat mode tmp).insertionSort (fun a b => b.2 ≤ a.2)).take 15

/-! ### Automatic conclusion (src/app.py line 274) -/

/-- The qualitative skew label of the automatic conclusion. -/
inductive Asimetria where
  | positiva
  | negativa
  | simetrica
deriving DecidableEq

/-- Embeds line 274: `positiva` when `s.mean() > s.median()`, `negativa`
when `s.mean() < s.median()`, `simetrica` otherwise (strict
comparisons). -/
def skewLabel (s : List ℚ) : Asimetria :=
  if sMean s > sMedian s then .positiva
  else if sMean s < sMedian s then .negativa
  else .simetrica

/-- Modelled from the spec: the CKAN datastore endpoint is an external
collaborator (only its caller is in src/); per the spec it is queried
"for up to `row_limit` records", so a store honours the row limit when
every response holds at most `limit` records. -/
def StoreHonorsLimit (store : String → Nat → List Row) : Prop :=
  ∀ i limit, (store i limit).length ≤ limit




/-! ## Claims -/

/-- C2: `cargar_recurso` selects exactly one materialization strategy in
fixed priority order: with `datastore_active` truthy it loads from the
structured store (and the CSV reader is never consulted — the result does
not depend on it); otherwise, with declared format equal to "CSV"
case-insensitively and a truthy url, it parses the CSV at that url;
otherwise it returns `none`, deterministically. -/
theorem claim_C2_load_strategy (store : String → Nat → List Row)
    (readCsv : String → Table) (r : Resource) (limit : Nat) :
    (r.datastore_active = true →
      cargar_recurso store readCsv r limit = some (Table.mk (store r.id limit))
        ∧ ∀ readCsv2, cargar_recurso store readCsv2 r limit
            = cargar_recurso store readCsv r limit)
    ∧ (r.datastore_active = false → ∀ u, r.url = some u → u ≠ "" →
        (r.format.getD "").toUpper = "CSV" →
        cargar_recurso store readCsv r limit = some (readCsv u))
    ∧ (r.datastore_active = false →
        ¬((r.format.getD "").toUpper = "CSV" ∧ urlTruthy r.url = true) →
        cargar_recurso store readCsv r limit = none) := by
  refine ⟨fun h => ⟨?_, fun readCsv2 => ?_⟩,
    fun h u hu hne hfmt => ?_, fun h hn => ?_⟩
  · simp [cargar_recurso, cargar_recurso_datastore, h]
  · simp [cargar_recurso, cargar_recurso_datastore, h]
  · simp [cargar_recurso, h, hu, urlTruthy, hfmt, bne_iff_ne, hne]
  · simp only [cargar_recurso, h, Bool.false_eq_true, if_false]
    rw [if_neg]
    simp only [Bool.and_eq_true, beq_iff_eq]
    exact fun hc => hn ⟨hc.1, hc.2⟩

/-- Witness for C2 at a concrete datastore-active resource. -/
theorem claim_C2_load_strategy_witness :
    cargar_recurso (fun _ _ => []) (fun _ => Table.mk [])
      ⟨"rid", none, true, none⟩ 5 = some (Table.mk []) :=
  ((claim_C2_load_strategy (fun _ _ => []) (fun _ => Table.mk [])
    ⟨"rid", none, true, none⟩ 5).1 rfl).1

/-- C4: on the datastore path the returned table has at most `limit` rows
(under the spec-modelled store contract `StoreHonorsLimit`); on the CSV
path the whole parsed file is returned unchanged for every `limit`, so no
row cap is enforced there. -/
theorem claim_C4_row_cap (store : String → Nat → List Row)
    (readCsv : String → Table) (r : Resource)
    (hstore : StoreHonorsLimit store) :
    (r.datastore_active = true → ∀ limit, ∃ t,
      cargar_recurso store readCsv r limit = some t
        ∧ t.rows.length ≤ limit)
    ∧ (r.datastore_active = false → ∀ u, r.url = some u → u ≠ "" →
        (r.format.getD "").toUpper = "CSV" → ∀ limit,
        cargar_recurso store readCsv r limit = some (readCsv u)) := by
  constructor
  · intro h limit
    refine ⟨Table.mk (store r.id limit), ?_, hstore r.id limit⟩
    simp [cargar_recurso, cargar_recurso_datastore, h]
  · intro h u hu hne hfmt limit
    simp [cargar_recurso, h, hu, urlTruthy, hfmt, bne_iff_ne, hne]

/-- Witness for C4: a store answering no records honours every limit. -/
theorem claim_C4_row_cap_witness :
    ∃ t, cargar_recurso (fun _ _ => []) (fun _ => Table.mk [])
      ⟨"rid", none, true, none⟩ 5 = some t ∧ t.rows.length ≤ 5 :=
  (claim_C4_row_cap (fun _ _ => []) (fun _ => Table.mk [])
    ⟨"rid", none, true, none⟩ (fun _ _ => Nat.zero_le _)).1 rfl 5

/-- C8: a column is a categorical candidate exactly when its distinct
non-null value count lies in [2, 60]; a column whose distinct-value
computation raises (`nunique` yields `none`, as on unhashable cells)
contributes nothing to the candidate set — prepending such a column
leaves the result unchanged.  The classification is a total function, so
it never raises. -/
theorem claim_C8_low_cardinality (df : ColTable) (c : String) :
    (c ∈ low_cardinality_cols df 60 ↔
      ∃ cells n, (c, cells) ∈ df ∧ nunique cells = some n ∧ 2 ≤ n ∧ n ≤ 60)
    ∧ (∀ cells, Cell.exotic ∈ cells → ∀ d : ColTable,
        low_cardinality_cols ((c, cells) :: d) 60
          = low_cardinality_cols d 60) := by
  constructor
  · constructor
    · intro h
      rw [low_cardinality_cols, List.mem_filterMap] at h
      obtain ⟨⟨c2, cells⟩, hmem, hf⟩ := h
      cases hn : nunique cells with
      | none => simp [hn] at hf
      | some n =>
        simp only [hn] at hf
        split_ifs at hf with hcond
        obtain rfl : c2 = c := by simpa using hf
        exact ⟨cells, n, hmem, hn, hcond.1, hcond.2⟩
    · rintro ⟨cells, n, hmem, hn, h2, h60⟩
      rw [low_cardinality_cols, List.mem_filterMap]
      exact ⟨(c, cells), hmem, by simp [hn, h2, h60]⟩
  · intro cells hex d
    have hnone : nunique cells = none := by
      rw [nunique, if_pos (List.elem_eq_true_of_mem hex)]
    rw [low_cardinality_cols, List.filterMap_cons]
    rw [low_cardinality_cols]
    simp only [hnone]

/-- Witness for C8 at a concrete table: the exotic column is skipped. -/
theorem claim_C8_low_cardinality_witness :
    low_cardinality_cols [("exo", [Cell.exotic])] 60
      = low_cardinality_cols [] 60 :=
  (claim_C8_low_cardinality [] "exo").2 [Cell.exotic]
    (List.mem_singleton.mpr rfl) []

/-- C10: the category candidates offered for the Top-15 aggregation are
the low-cardinality columns of the filtered table minus the selected
indicator column, which is always excluded — even when it qualifies. -/
theorem claim_C10_excludes_indicator (df_f : ColTable) (col : String) :
    col ∉ cat_candidates df_f col
    ∧ ∀ c, c ∈ cat_candidates df_f col ↔
        (c ∈ low_cardinality_cols df_f 60 ∧ c ≠ col) := by
  constructor
  · intro h
    rw [cat_candidates, List.mem_filter] at h
    exact absurd h.2 (by simp)
  · intro c
    rw [cat_candidates, List.mem_filter, bne_iff_ne]

/-- Auxiliary: a left fold of `min` stays below its initial accumulator. -/
theorem foldl_min_le_init (xs : List ℚ) : ∀ a : ℚ, xs.foldl min a ≤ a := by
  induction xs with
  | nil => intro a; exact le_refl a
  | cons x xs ih => intro a; exact le_trans (ih (min a x)) (min_le_left a x)

/-- Auxiliary: a left fold of `min` is below every list element. -/
theorem foldl_min_le_mem (xs : List ℚ) :
    ∀ (a v : ℚ), v ∈ xs → xs.foldl min a ≤ v := by
  induction xs with
  | nil => intro a v hv; cases hv
  | cons x xs ih =>
    intro a v hv
    rcases List.mem_cons.1 hv with rfl | hv2
    · exact le_trans (foldl_min_le_init xs (min a v)) (min_le_right a v)
    · exact ih (min a x) v hv2

/-- Auxiliary: a left fold of `max` stays above its initial accumulator. -/
theorem le_foldl_max_init (xs : List ℚ) : ∀ a : ℚ, a ≤ xs.foldl max a := by
  induction xs with
  | nil => intro a; exact le_refl a
  | cons x xs ih => intro a; exact le_trans (le_max_left a x) (ih (max a x))

/-- Auxiliary: a left fold of `max` is above every list element. -/
theorem le_foldl_max_mem (xs : List ℚ) :
    ∀ (a v : ℚ), v ∈ xs → v ≤ xs.foldl max a := by
  induction xs with
  | nil => intro a v hv; cases hv
  | cons x xs ih =>
    intro a v hv
    rcases List.mem_cons.1 hv with rfl | hv2
    · exact le_trans (le_max_right a v) (le_foldl_max_init xs (max a v))
    · exact ih (max a x) v hv2

/-- `serie.min()` is a lower bound of the series. -/
theorem sMin_le (s : List ℚ) (v : ℚ) (hv : v ∈ s) : sMin s ≤ v := by
  cases s with
  | nil => cases hv
  | cons x xs =>
    rcases List.mem_cons.1 hv with rfl | hv2
    · exact foldl_min_le_init xs v
    · exact foldl_min_le_mem xs x v hv2

/-- `serie.max()` is an upper bound of the series. -/
theorem le_sMax (s : List ℚ) (v : ℚ) (hv : v ∈ s) : v ≤ sMax s := by
  cases s with
  | nil => cases hv
  | cons x xs =>
    rcases List.mem_cons.1 hv with rfl | hv2
    · exact le_foldl_max_init xs v
    · exact le_foldl_max_mem xs x v hv2

/-- The two-step row filter of lines 210-211 (filter the frame on the
coerced column, then re-extract and dropna) equals a direct filter of
the dropna'd series. -/
theorem filteredSerie_eq_filter (coerced : List (Option ℚ)) (lo hi : ℚ) :
    filteredSerie coerced lo hi
      = (coerced.filterMap id).filter
          (fun v => decide (lo ≤ v) && decide (v ≤ hi)) := by
  induction coerced with
  | nil => rfl
  | cons o rest ih =>
    cases o with
    | none =>
      simpa only [filteredSerie, List.filter_cons, List.filterMap_cons,
        Bool.false_eq_true, if_false] using ih
    | some v =>
      by_cases hv : (decide (lo ≤ v) && decide (v ≤ hi)) = true
      · simp only [filteredSerie, List.filter_cons, List.filterMap_cons,
          id_eq, hv, if_true] at ih ⊢
        rw [ih]
      · simp only [filteredSerie, List.filter_cons, List.filterMap_cons,
          id_eq, hv, Bool.false_eq_true, if_false] at ih ⊢
        rw [ih]

/-- C7: numeric coercion turns non-parseable values into null and drops
all nulls: the series is empty exactly when every entry coerces to null
(all entries non-numeric or null); on the column [10, 20, 30, "bad",
null] with "bad" non-parseable the series is [10, 20, 30]. -/
theorem claim_C7_coercion (parse : String → Option ℚ) (col : List Value) :
    (serieOf parse col = [] ↔ ∀ v ∈ col, toNumeric parse v = none)
    ∧ (parse "bad" = none →
        serieOf parse [Value.num 10, Value.num 20, Value.num 30,
          Value.str "bad", Value.null] = [10, 20, 30]) := by
  constructor
  · rw [serieOf, coerceCol, List.filterMap_eq_nil_iff]
    constructor
    · intro h v hv
      exact h _ (List.mem_map_of_mem _ hv)
    · intro h o ho
      obtain ⟨v, hv, rfl⟩ := List.mem_map.1 ho
      exact h v hv
  · intro hbad
    simp [serieOf, coerceCol, toNumeric, hbad]

/-- Witness for C7 with a parser on which "bad" is non-parseable. -/
theorem claim_C7_coercion_witness :
    serieOf (fun _ => none) [Value.num 10, Value.num 20, Value.num 30,
      Value.str "bad", Value.null] = [10, 20, 30] :=
  (claim_C7_coercion (fun _ => none)
    [Value.num 10, Value.num 20, Value.num 30,
      Value.str "bad", Value.null]).2 rfl

/-- C6: the range filter keeps exactly the values v of the coerced series
with lo ≤ v ≤ hi, inclusive at both ends and in order; with lo and hi
set to the series minimum and maximum it returns the series unchanged. -/
theorem claim_C6_filter_range (parse : String → Option ℚ)
    (col : List Value) (lo hi : ℚ) :
    (filteredSerie (coerceCol parse col) lo hi
      = (serieOf parse col).filter
          (fun v => decide (lo ≤ v) && decide (v ≤ hi)))
    ∧ (serieOf parse col ≠ [] →
        filteredSerie (coerceCol parse col)
          (sMin (serieOf parse col)) (sMax (serieOf parse col))
          = serieOf parse col) := by
  constructor
  · rw [serieOf]
    exact filteredSerie_eq_filter (coerceCol parse col) lo hi
  · intro _hne
    rw [serieOf, filteredSerie_eq_filter]
    apply List.filter_eq_self.2
    intro v hv
    simp only [Bool.and_eq_true, decide_eq_true_eq]
    exact ⟨sMin_le _ v hv, le_sMax _ v hv⟩

/-- Witness for C6: full-bounds filtering of the series [1, 5] is the
identity. -/
theorem claim_C6_filter_range_witness :
    filteredSerie (coerceCol (fun _ => none) [Value.num 1, Value.num 5])
      (sMin (serieOf (fun _ => none) [Value.num 1, Value.num 5]))
      (sMax (serieOf (fun _ => none) [Value.num 1, Value.num 5]))
      = serieOf (fun _ => none) [Value.num 1, Value.num 5] :=
  (claim_C6_filter_range (fun _ => none) [Value.num 1, Value.num 5] 0 0).2
    (by simp [serieOf, coerceCol, toNumeric])

/-- C9: the skew label is `positiva` exactly when mean > median,
`negativa` exactly when mean < median, `simetrica` exactly when they are
equal; [1,2,3,4,100] (mean 22, median 3) is `positiva` and [1,2,3,4,5]
(mean = median = 3) is `simetrica`. -/
theorem claim_C9_skew (s : List ℚ) :
    (skewLabel s = .positiva ↔ sMean s > sMedian s)
    ∧ (skewLabel s = .negativa ↔ sMean s < sMedian s)
    ∧ (skewLabel s = .simetrica ↔ sMean s = sMedian s)
    ∧ skewLabel [1, 2, 3, 4, 100] = .positiva
    ∧ skewLabel [1, 2, 3, 4, 5] = .simetrica := by
  refine ⟨?_, ?_, ?_, by with_unfolding_all rfl, by with_unfolding_all rfl⟩
  · rw [skewLabel]
    split_ifs with h1 h2
    · exact iff_of_true rfl h1
    · exact iff_of_false (by simp) h1
    · exact iff_of_false (by simp) h1
  · rw [skewLabel]
    split_ifs with h1 h2
    · exact iff_of_false (by simp) (not_lt_of_gt h1)
    · exact iff_of_true rfl h2
    · exact iff_of_false (by simp) h2
  · rw [skewLabel]
    split_ifs with h1 h2
    · exact iff_of_false (by simp) (ne_of_gt h1)
    · exact iff_of_false (by simp) (ne_of_lt h2)
    · exact iff_of_true rfl (le_antisymm (not_lt.1 h1) (not_lt.1 h2))

/-- C1 (counterexample): on the column [1, 5] with filter range [3, 3]
(reachable on the slider, whose bounds are the series min 1 and max 5),
range filtering leaves zero elements, yet no EmptySeriesError is
signaled: the interaction proceeds and the KPIs are computed over the
empty filtered series (count 0). -/
theorem claim_C1_counterexample :
    (∃ k : KPIs, analisis (fun _ => none) [Value.num 1, Value.num 5] 3 3
      = .ok k ∧ k.registros = 0)
    ∧ analisis (fun _ => none) [Value.num 1, Value.num 5] 3 3
        ≠ .error .emptySeriesError :=
  ⟨⟨⟨0, 0, 0, 0, 0, 0⟩, by with_unfolding_all rfl, rfl⟩,
    fun h => by rw [show analisis (fun _ => none)
      [Value.num 1, Value.num 5] 3 3 = .ok ⟨0, 0, 0, 0, 0, 0⟩ from
        by with_unfolding_all rfl] at h; exact Except.noConfusion h⟩

/-- C1 (amended): the EmptySeriesError halt happens exactly when numeric
coercion leaves the series empty; when the coerced series is non-empty
the interaction never halts, and the KPIs are computed over the
range-filtered series even if the filter left it empty. -/
theorem claim_C1_empty_series (parse : String → Option ℚ)
    (col : List Value) (lo hi : ℚ) :
    (serieOf parse col = [] ↔
      analisis parse col lo hi = .error .emptySeriesError)
    ∧ (serieOf parse col ≠ [] →
        analisis parse col lo hi =
          .ok ⟨(filteredSerie (coerceCol parse col) lo hi).length,
            (filteredSerie (coerceCol parse col) lo hi).sum,
            sMean (filteredSerie (coerceCol parse col) lo hi),
            sMedian (filteredSerie (coerceCol parse col) lo hi),
            sQuantile (9 / 10) (filteredSerie (coerceCol parse col) lo hi),
            sMax (filteredSerie (coerceCol parse col) lo hi)⟩) := by
  rw [serieOf]
  by_cases h : (coerceCol parse col).filterMap id = []
  · refine ⟨iff_of_true h ?_, fun hne => absurd h hne⟩
    rw [analisis, if_pos (List.isEmpty_iff.2 h)]
  · have hne2 : ((coerceCol parse col).filterMap id).isEmpty = false := by
      rw [Bool.eq_false_iff]
      intro hb
      exact h (List.isEmpty_iff.1 hb)
    constructor
    · refine iff_of_false h ?_
      rw [analisis]
      rw [if_neg (by rw [hne2]; exact Bool.false_ne_true)]
      exact fun hc => Except.noConfusion hc
    · intro _
      rw [analisis]
      rw [if_neg (by rw [hne2]; exact Bool.false_ne_true)]

/-- Witness for the amended C1: on an all-null column the coerced series
is empty and the app halts with the empty-series condition. -/
theorem claim_C1_empty_series_witness :
    analisis (fun _ => none) [Value.null] 0 0
      = .error .emptySeriesError :=
  (claim_C1_empty_series (fun _ => none) [Value.null] 0 0).1.mp rfl

/-- Auxiliary: inserting an entry with the descending-by-value comparison
into a list that is value-descending and `R`-ordered at equal values
keeps that shape, provided the entry is `R`-related to every equal-valued
element of the list. -/
theorem pairwise_orderedInsert_desc (R : String × ℚ → String × ℚ → Prop)
    (x : String × ℚ) :
    ∀ l : List (String × ℚ),
      l.Pairwise (fun a b => b.2 ≤ a.2 ∧ (a.2 = b.2 → R a b)) →
      (∀ b ∈ l, x.2 = b.2 → R x b) →
      (l.orderedInsert (fun a b => b.2 ≤ a.2) x).Pairwise
        (fun a b => b.2 ≤ a.2 ∧ (a.2 = b.2 → R a b)) := by
  intro l
  induction l with
  | nil => intro _ _; exact List.pairwise_singleton _ _
  | cons y l ih =>
    intro hl hx
    rw [List.orderedInsert]
    split_ifs with h
    · refine List.pairwise_cons.2 ⟨?_, hl⟩
      intro b hb
      rcases List.mem_cons.1 hb with rfl | hbl
      · exact ⟨h, hx _ (List.mem_cons_self _ _)⟩
      · have hyb := (List.pairwise_cons.1 hl).1 b hbl
        exact ⟨le_trans hyb.1 h, hx _ (List.mem_cons_of_mem _ hbl)⟩
    · have hlt : x.2 < y.2 := lt_of_not_le h
      refine List.pairwise_cons.2 ⟨?_, ?_⟩
      · intro b hb
        rcases (List.mem_orderedInsert _).1 hb with rfl | hbl
        · exact ⟨le_of_lt hlt, fun he => absurd he (ne_of_gt hlt)⟩
        · exact (List.pairwise_cons.1 hl).1 b hbl
      · exact ih (List.pairwise_cons.1 hl).2
          (fun b hb he => hx b (List.mem_cons_of_mem _ hb) he)

/-- Auxiliary: the stable descending-by-value sort of an entry list whose
equal-valued entries are `R`-ordered left to right yields a
value-descending list whose equal-valued entries are still `R`-ordered. -/
theorem pairwise_insertionSort_desc (R : String × ℚ → String × ℚ → Prop) :
    ∀ l : List (String × ℚ),
      l.Pairwise (fun a b => a.2 = b.2 → R a b) →
      (l.insertionSort (fun a b => b.2 ≤ a.2)).Pairwise
        (fun a b => b.2 ≤ a.2 ∧ (a.2 = b.2 → R a b)) := by
  intro l
  induction l with
  | nil => intro _; exact List.Pairwise.nil
  | cons x l ih =>
    intro hl
    rw [List.insertionSort]
    refine pairwise_orderedInsert_desc R x _ ((ih (List.pairwise_cons.1 hl).2)) ?_
    intro b hb he
    exact (List.pairwise_cons.1 hl).1 b ((List.mem_insertionSort _).1 hb) he

/-- Auxiliary: the first components of `groupedByCat` are exactly the
distinct category keys in ascending order. -/
theorem groupedByCat_map_fst (mode : Mode) (tmp : List (String × ℚ)) :
    (groupedByCat mode tmp).map Prod.fst
      = ((tmp.map Prod.fst).dedup).insertionSort (fun a b => a ≤ b) := by
  rw [groupedByCat, List.map_map]
  exact List.map_id _

/-- Auxiliary: sorting distinct keys ascending yields a strictly
ascending list. -/
theorem keysSorted_pairwise_lt (keys : List String) (hnd : keys.Nodup) :
    (keys.insertionSort (fun a b => a ≤ b)).Pairwise (fun a b => a < b) := by
  have hs : (keys.insertionSort (fun a b => a ≤ b)).Pairwise
      (fun a b : String => a ≤ b) :=
    List.sorted_insertionSort _ _
  have hnd2 : (keys.insertionSort (fun a b => a ≤ b)).Nodup :=
    (List.perm_insertionSort _ _).nodup_iff.2 hnd
  exact (hs.and hnd2).imp (fun h => lt_of_le_of_ne h.1 h.2)

/-- Auxiliary: every list of entries is trivially related at equal
values. -/
theorem pairwise_trivial (l : List (String × ℚ)) :
    l.Pairwise (fun a b => a.2 = b.2 → True) := by
  induction l with
  | nil => exact List.Pairwise.nil
  | cons x l ih => exact List.pairwise_cons.2 ⟨fun _ _ _ => trivial, ih⟩

/-- C5: for every table, category column and mode, the Top-15 aggregate
has at most 15 entries, its reduced values are non-increasing, and when
fewer than 15 distinct categories exist all of them are returned with no
padding (the length equals the distinct-category count and every
category appears). -/
theorem claim_C5_top15 (mode : Mode) (tmp : List (String × ℚ)) :
    (top15 mode tmp).length ≤ 15
    ∧ (top15 mode tmp).Pairwise (fun a b => b.2 ≤ a.2)
    ∧ ((tmp.map Prod.fst).dedup.length < 15 →
        (top15 mode tmp).length = (tmp.map Prod.fst).dedup.length
        ∧ ∀ k ∈ (tmp.map Prod.fst).dedup,
            k ∈ (top15 mode tmp).map Prod.fst) := by
  have hlen2 : ((groupedByCat mode tmp).insertionSort
      (fun a b => b.2 ≤ a.2)).length = (tmp.map Prod.fst).dedup.length := by
    rw [List.length_insertionSort, groupedByCat, List.length_map,
      List.length_insertionSort]
  refine ⟨?_, ?_, fun hlen => ⟨?_, fun k hk => ?_⟩⟩
  · rw [top15]
    exact List.length_take_le _ _
  · have hs := pairwise_insertionSort_desc (fun _ _ => True)
      (groupedByCat mode tmp) (pairwise_trivial _)
    rw [top15]
    exact (hs.imp (fun h => h.1)).sublist (List.take_sublist _ _)
  · rw [top15, List.take_of_length_le (le_of_lt (hlen2 ▸ hlen))]
    exact hlen2
  · rw [top15, List.take_of_length_le (le_of_lt (hlen2 ▸ hlen))]
    have hperm := (List.perm_insertionSort
      (fun a b : String × ℚ => b.2 ≤ a.2) (groupedByCat mode tmp)).map Prod.fst
    rw [hperm.mem_iff, groupedByCat_map_fst]
    exact (List.mem_insertionSort _).2 hk

/-- Witness for C5 on a one-category table: all categories are
returned. -/
theorem claim_C5_top15_witness :
    (top15 Mode.conteo [("x", 2)]).length
      = (([("x", (2:ℚ))].map Prod.fst).dedup).length :=
  ((claim_C5_top15 Mode.conteo [("x", 2)]).2.2 (by decide)).1

/-- C3 (counterexample): with rows whose categories first occur in the
order b, a, c and all reduced values equal, the aggregate does not list
the tied categories in first-occurrence order — `groupby` has already
re-ordered the keys before the value sort. -/
theorem claim_C3_counterexample :
    top15 Mode.suma [("b", 1), ("a", 1), ("c", 1)]
      ≠ [("b", 1), ("a", 1), ("c", 1)] := by
  rw [show top15 Mode.suma [("b", 1), ("a", 1), ("c", 1)]
      = [("a", 1), ("b", 1), ("c", 1)] from by with_unfolding_all rfl]
  decide

/-- C3 (amended): categories whose reduced values are equal appear in
ascending lexicographic order of the (stringified) category key —
`groupby` sorts the keys before the stable descending value sort — not
in first-occurrence row order. -/
theorem claim_C3_ties (mode : Mode) (tmp : List (String × ℚ)) :
    (top15 mode tmp).Pairwise (fun a b => a.2 = b.2 → a.1 < b.1) := by
  have hkeys : ((tmp.map Prod.fst).dedup).Nodup := List.nodup_dedup _
  have hlt := keysSorted_pairwise_lt _ hkeys
  have hgrp : (groupedByCat mode tmp).Pairwise (fun a b => a.1 < b.1) := by
    rw [groupedByCat]
    exact List.pairwise_map.2 (hlt.imp (fun h => h))
  have hsorted := pairwise_insertionSort_desc (fun a b => a.1 < b.1)
    (groupedByCat mode tmp)
    (hgrp.imp (fun h => fun (_ : Prod.snd _ = Prod.snd _) => h))
  rw [top15]
  exact (hsorted.imp (fun h => h.2)).sublist (List.take_sublist _ _)

/-- Witness for the amended C3 at a concrete tied table. -/
theorem claim_C3_ties_witness :
    (top15 Mode.suma [("b", 1), ("a", 1), ("c", 1)]).Pairwise
      (fun a b => a.2 = b.2 → a.1 < b.1) :=
  claim_C3_ties Mode.suma [("b", 1), ("a", 1), ("c", 1)]

/-- Witness for C9: concrete evaluation of the skew examples. -/
theorem claim_C9_skew_witness :
    skewLabel [1, 2, 3, 4, 100] = .positiva :=
  (claim_C9_skew [1, 2, 3, 4, 100]).2.2.2.1

/-- Witness for C10 at a concrete table and indicator column. -/
theorem claim_C10_excludes_indicator_witness :
    "egresos" ∉ cat_candidates [] "egresos" :=
  (claim_C10_excludes_indicator [] "egresos").1
